import Mathlib

/-!
Verification development for the ARCO-ERA5 calendar-addressed chunk
ingestion engine.

The definitions below are a shallow embedding of the Python sources:
  * `src/arco_era5/update_co.py` — `variable_dict`, `copy`,
    `GenerateOffset.apply`, `UpdateSlice.apply`;
  * `src/single-levels-to-zarr.py` — `make_path`;
  * `src/arco_era5/ingest_data_in_zarr.py` — `CO_FILES_MAPPING`;
  * `src/raw-to-zarr-to-bq.py` — the data-availability poll loop.

Strings are modelled as `List Char`; Python exceptions are modelled by
`Option`/explicit outcome records.  The date arithmetic of the Python
`datetime` library (proleptic Gregorian ordinals, `calendar.monthrange`,
`calendar.isleap`) is embedded with `Nat` arithmetic, following the
CPython implementation (`_days_before_year`, `_days_before_month`).
-/

/-! ## Calendar arithmetic (Python `datetime` / `calendar`) -/

/-- `calendar.isleap(y)`: `y % 4 == 0 and (y % 100 != 0 or y % 400 == 0)`. -/
def isLeap (y : Nat) : Bool :=
  y % 4 == 0 && (y % 100 != 0 || y % 400 == 0)

/-- `calendar.monthrange(y, m)[1]` for months `1..12`: the number of days
of month `m` in year `y` of the proleptic Gregorian calendar. -/
def daysInMonth (y m : Nat) : Nat :=
  if m = 2 then (if isLeap y then 29 else 28)
  else if m = 4 ∨ m = 6 ∨ m = 9 ∨ m = 11 then 30
  else 31

/-- Number of days in year `y` (366 in a leap year). -/
def daysInYear (y : Nat) : Nat := if isLeap y then 366 else 365

/-- CPython `datetime._days_before_year(y)`: days between 0001-01-01 and
the first day of year `y`. -/
def daysBeforeYear (y : Nat) : Nat :=
  365 * (y - 1) + (y - 1) / 4 - (y - 1) / 100 + (y - 1) / 400

/-- CPython `datetime._days_before_month(y, m)`: days between January 1st
and the first day of month `m` in year `y` (table `_DAYS_BEFORE_MONTH`,
plus one in a leap year when `m > 2`).  Index 13 is one past December. -/
def daysBeforeMonth (y m : Nat) : Nat :=
  (if 2 < m then (if isLeap y then 1 else 0) else 0) +
  (match m with
   | 1 => 0 | 2 => 31 | 3 => 59 | 4 => 90 | 5 => 120 | 6 => 151 | 7 => 181
   | 8 => 212 | 9 => 243 | 10 => 273 | 11 => 304 | 12 => 334 | 13 => 365
   | _ => 0)

/-- A calendar date as produced by `datetime.datetime.strptime`. -/
structure Date where
  year : Nat
  month : Nat
  day : Nat
deriving DecidableEq, Repr

/-- `datetime.date.toordinal`: day number of a date in the proleptic
Gregorian calendar, with 0001-01-01 being day 1.  The `.days` field of a
`datetime` subtraction is the difference of the two ordinals. -/
def toOrdinal (d : Date) : Nat :=
  daysBeforeYear d.year + daysBeforeMonth d.year d.month + d.day

/-- The dates accepted by the `datetime` constructor (`MINYEAR = 1`,
month in `1..12`, day within the month). -/
def validDate (d : Date) : Prop :=
  1 ≤ d.year ∧ 1 ≤ d.month ∧ d.month ≤ 12 ∧ 1 ≤ d.day ∧
    d.day ≤ daysInMonth d.year d.month

/-- Strict calendar order on dates (year, then month, then day). -/
def dateLt (a b : Date) : Prop :=
  a.year < b.year ∨
    (a.year = b.year ∧
      (a.month < b.month ∨ (a.month = b.month ∧ a.day < b.day)))

instance : DecidablePred validDate := fun d => by
  unfold validDate; infer_instance

instance (a b : Date) : Decidable (dateLt a b) := by
  unfold dateLt; infer_instance

/-! ## Digit strings and `strptime` -/

/-- Decimal digit characters. -/
def isDig (ch : Char) : Bool := decide (48 ≤ ch.toNat ∧ ch.toNat ≤ 57)

/-- The value of a decimal digit character. -/
def digitVal (ch : Char) : Nat := ch.toNat - 48

/-- The character of a decimal digit. -/
def digitChar (d : Nat) : Char := Char.ofNat (48 + d)

/-- Decode a list of decimal digit characters, most significant first. -/
def decodeDigits (ds : List Char) : Nat :=
  ds.foldl (fun a ch => 10 * a + digitVal ch) 0

/-- `datetime.datetime.strptime(s, "%Y%m%d")` restricted to the
zero-padded eight-digit dates the pipeline produces (`%Y` is exactly four
digits; the regexes for `%m`/`%d` then force two digits each), followed by
the `datetime` constructor's range checks.  Unpadded variants the regex
would also admit cannot occur in the generated filenames. -/
def strptimeYmd (s : List Char) : Option Date :=
  if s.length = 8 ∧ s.all isDig then
    if 1 ≤ decodeDigits (s.take 4) ∧ 1 ≤ decodeDigits ((s.drop 4).take 2) ∧
        decodeDigits ((s.drop 4).take 2) ≤ 12 ∧
        1 ≤ decodeDigits (s.drop 6) ∧
        decodeDigits (s.drop 6) ≤
          daysInMonth (decodeDigits (s.take 4))
            (decodeDigits ((s.drop 4).take 2)) then
      some ⟨decodeDigits (s.take 4), decodeDigits ((s.drop 4).take 2),
        decodeDigits (s.drop 6)⟩
    else none
  else none

/-- Greedy parse of a one- or two-digit field in `1..hi`, as the
CPython `strptime` regexes for `%m` (`1[0-2]|0[1-9]|[1-9]`) and `%d`
(`3[01]|[12]\d|0[1-9]|[1-9]`) match it. -/
def parseField (hi : Nat) (s : List Char) : Option (Nat × List Char) :=
  match s with
  | c1 :: c2 :: rest =>
    if isDig c1 ∧ isDig c2 then
      let v := digitVal c1 * 10 + digitVal c2
      if 1 ≤ v ∧ v ≤ hi then some (v, rest)
      else none
    else if isDig c1 ∧ 1 ≤ digitVal c1 ∧ digitVal c1 ≤ 9 then
      some (digitVal c1, c2 :: rest)
    else none
  | [c1] =>
    if isDig c1 ∧ 1 ≤ digitVal c1 ∧ digitVal c1 ≤ 9 then
      some (digitVal c1, [])
    else none
  | [] => none

/-- `datetime.datetime.strptime(s, "%Y-%m-%d")` (used by
`convert_to_date` on `init_date`): four year digits, a hyphen, a one- or
two-digit month, a hyphen, a one- or two-digit day, then the `datetime`
constructor's range checks. -/
def strptimeIsoDate (s : List Char) : Option Date :=
  match s with
  | y1 :: y2 :: y3 :: y4 :: rest =>
    if isDig y1 ∧ isDig y2 ∧ isDig y3 ∧ isDig y4 then
      let y := digitVal y1 * 1000 + digitVal y2 * 100 +
               digitVal y3 * 10 + digitVal y4
      match rest with
      | '-' :: rest2 =>
        match parseField 12 rest2 with
        | some (m, rest3) =>
          match rest3 with
          | '-' :: rest4 =>
            match parseField 31 rest4 with
            | some (d, []) =>
              if 1 ≤ y ∧ d ≤ daysInMonth y m then some ⟨y, m, d⟩ else none
            | _ => none
          | _ => none
        | none => none
      | _ => none
    else none
  | _ => none

/-! ## Python string operations on `List Char`

`str.split(sep)`, `str.replace(old, new)` and `str.rsplit(sep, 1)` are
embedded with fuel-based structural recursion (the fuel is the length of
the string, which strictly bounds the recursion depth), so that every
definition reduces in the kernel. -/

/-- Worker for `str.split(sep)` with `sep = c :: rest` nonempty; `fuel`
bounds the length of the remaining string. -/
def splitGo (c : Char) (rest : List Char) : Nat → List Char → List (List Char)
  | _, [] => [[]]
  | 0, s => [s]
  | fuel + 1, a :: s =>
    if (c :: rest).isPrefixOf (a :: s) then
      [] :: splitGo c rest fuel ((a :: s).drop (rest.length + 1))
    else
      match splitGo c rest fuel s with
      | [] => [[a]]
      | x :: xs => (a :: x) :: xs

/-- Python `s.split(sep)` for a nonempty separator (splitting on the
empty separator raises in Python and never occurs here). -/
def pySplit (sep s : List Char) : List (List Char) :=
  match sep with
  | [] => [s]
  | c :: rest => splitGo c rest s.length s

/-- Worker for `str.replace(pat, rep)` with `pat = c :: rest` nonempty. -/
def replGo (c : Char) (rest rep : List Char) : Nat → List Char → List Char
  | _, [] => []
  | 0, s => s
  | fuel + 1, a :: s =>
    if (c :: rest).isPrefixOf (a :: s) then
      rep ++ replGo c rest rep fuel ((a :: s).drop (rest.length + 1))
    else
      a :: replGo c rest rep fuel s

/-- Python `s.replace(pat, rep)` for a nonempty pattern. -/
def pyReplace (s pat rep : List Char) : List Char :=
  match pat with
  | [] => s
  | c :: rest => replGo c rest rep s.length s

/-- Split a string at the first occurrence of character `c` (`none` when
`c` does not occur). -/
def breakAtFirst (c : Char) : List Char → Option (List Char × List Char)
  | [] => none
  | a :: s =>
    if a = c then some ([], s)
    else
      match breakAtFirst c s with
      | none => none
      | some (x, y) => some (a :: x, y)

/-- Python `s.rsplit(c, 1)`: split at the last occurrence of `c`,
returning one element when `c` does not occur. -/
def pyRsplit1 (c : Char) (s : List Char) : List (List Char) :=
  match breakAtFirst c s.reverse with
  | none => [s]
  | some (x, y) => [y.reverse, x.reverse]

/-! ## Rendering decimal numbers (Python `f"{n:04d}"`) -/

/-- Fuel-based decimal rendering worker. -/
def natToCharsGo : Nat → Nat → List Char
  | 0, _ => []
  | fuel + 1, n =>
    if n < 10 then [digitChar n]
    else natToCharsGo fuel (n / 10) ++ [digitChar (n % 10)]

/-- The decimal digits of `n`, most significant first. -/
def natToChars (n : Nat) : List Char := natToCharsGo (n + 1) n

/-- Python `f"{n:0wd}"`: decimal rendering left-padded with zeros to
width `w`. -/
def pad (w n : Nat) : List Char :=
  List.replicate (w - (natToChars n).length) '0' ++ natToChars n

/-! ## The Variable Catalog (`variable_dict` in `update_co.py`) -/

/-- Association-list lookup, the model of a Python `dict[...]` access
(`none` models the `KeyError`). -/
def assocLookup (k : List Char) :
    List (List Char × List (List Char)) → Option (List (List Char))
  | [] => none
  | (k', v) :: rest => if k = k' then some v else assocLookup k rest

/-- `variable_dict` of `update_co.py`, in source order. -/
def vdPairs : List (List Char × List (List Char)) := [
  (("dve").toList, [("d").toList, ("vo").toList]),
  (("tw").toList, [("t").toList, ("w").toList]),
  (("o3q").toList, [("q").toList, ("o3").toList, ("clwc").toList,
    ("ciwc").toList, ("cc").toList]),
  (("qrqs").toList, [("crwc").toList, ("cswc").toList]),
  (("lnsp").toList, [("lnsp").toList]),
  (("zs").toList, [("z").toList]),
  (("cape").toList, [("cape").toList, ("p79.162").toList, ("p80.162").toList]),
  (("cisst").toList, [("siconc").toList, ("sst").toList, ("skt").toList]),
  (("sfc").toList, [("z").toList, ("sp").toList, ("tcwv").toList,
    ("msl").toList, ("tcc").toList, ("u10").toList, ("v10").toList,
    ("t2m").toList, ("d2m").toList, ("lcc").toList, ("mcc").toList,
    ("hcc").toList, ("u100").toList, ("v100").toList]),
  (("tcol").toList, [("tclw").toList, ("tciw").toList, ("tcw").toList,
    ("tcwv").toList, ("tcrw").toList, ("tcsw").toList]),
  (("soil_depthBelowLandLayer_istl1").toList, [("istl1").toList]),
  (("soil_depthBelowLandLayer_istl2").toList, [("istl2").toList]),
  (("soil_depthBelowLandLayer_istl3").toList, [("istl3").toList]),
  (("soil_depthBelowLandLayer_istl4").toList, [("istl4").toList]),
  (("soil_depthBelowLandLayer_stl1").toList, [("stl1").toList]),
  (("soil_depthBelowLandLayer_stl2").toList, [("stl2").toList]),
  (("soil_depthBelowLandLayer_stl3").toList, [("stl3").toList]),
  (("soil_depthBelowLandLayer_stl4").toList, [("stl4").toList]),
  (("soil_depthBelowLandLayer_swvl1").toList, [("swvl1").toList]),
  (("soil_depthBelowLandLayer_swvl2").toList, [("swvl2").toList]),
  (("soil_depthBelowLandLayer_swvl3").toList, [("swvl3").toList]),
  (("soil_depthBelowLandLayer_swvl4").toList, [("swvl4").toList]),
  (("soil_surface_tsn").toList, [("tsn").toList]),
  (("rad").toList, [("ssrd").toList, ("strd").toList, ("str").toList,
    ("ttr").toList, ("gwd").toList]),
  (("pcp_surface_cp").toList, [("cp").toList]),
  (("pcp_surface_crr").toList, [("crr").toList]),
  (("pcp_surface_csf").toList, [("csf").toList]),
  (("pcp_surface_csfr").toList, [("csfr").toList]),
  (("pcp_surface_es").toList, [("es").toList]),
  (("pcp_surface_lsf").toList, [("lsf").toList]),
  (("pcp_surface_lsp").toList, [("lsp").toList]),
  (("pcp_surface_lspf").toList, [("lspf").toList]),
  (("pcp_surface_lsrr").toList, [("lsrr").toList]),
  (("pcp_surface_lssfr").toList, [("lssfr").toList]),
  (("pcp_surface_ptype").toList, [("ptype").toList]),
  (("pcp_surface_rsn").toList, [("rsn").toList]),
  (("pcp_surface_sd").toList, [("sd").toList]),
  (("pcp_surface_sf").toList, [("sf").toList]),
  (("pcp_surface_smlt").toList, [("smlt").toList]),
  (("pcp_surface_tp").toList, [("tp").toList])]

/-- `variable_dict[chunk]` (`none` is the `KeyError`). -/
def lookupVD (k : List Char) : Option (List (List Char)) :=
  assocLookup k vdPairs

/-- The registered group names of the Variable Catalog. -/
def vdKeys : List (List Char) := vdPairs.map Prod.fst

/-! ## The Offset Calculator (`GenerateOffset` in `update_co.py`) -/

/-- A Python `slice(start, end)` along the store's time axis. -/
structure Slice where
  start : Int
  stop : Int
deriving DecidableEq, Repr

/-- Filename constants of `GenerateOffset.apply` and `make_path`. -/
def hresL : List Char := ['_', 'h', 'r', 'e', 's', '_']

/-- The `".grb2_"` marker of a split one-variable file. -/
def dotGrb2U : List Char := ['.', 'g', 'r', 'b', '2', '_']

/-- The single-character separator `"_"`. -/
def uL : List Char := ['_']

/-- The `".grb2"` extension of an unsplit shard. -/
def dotGrb2 : List Char := ['.', 'g', 'r', 'b', '2']

/-- The `".grib"` extension of a split one-variable shard. -/
def dotGrib : List Char := ['.', 'g', 'r', 'i', 'b']

/-- The directory in which `make_path` places every shard. -/
def gsMonthBase : List Char :=
  ("gs://gcp-public-data-arco-era5/raw/ERA5GRIB/HRES/Month/").toList

/-- The filename-to-(date, group) reduction at the top of
`GenerateOffset.apply`:
`file_name = url.rsplit('/', 1)[1].rsplit('.', 1)[0]`,
`int_date, chunk = file_name.split('_hres_')` (exactly two parts, else a
`ValueError`), then
`if "_" in chunk: chunk = chunk.replace(".grb2_", "_")`. -/
def parseChunkKey (url : List Char) : Option (List Char × List Char) :=
  match (pyRsplit1 '/' url)[1]? with
  | none => none
  | some fnameFull =>
    match (pyRsplit1 '.' fnameFull)[0]? with
    | none => none
    | some file_name =>
      match pySplit hresL file_name with
      | [i, c] =>
        some (i, if '_' ∈ c then pyReplace c dotGrb2U uL else c)
      | _ => none

/-- The `GenerateOffset` beam transform (its dataclass fields with their
defaults). -/
structure GenerateOffset where
  init_date : List Char := ("1900-01-01").toList
  timestamps_per_file : Int := 24
  is_single_level : Bool := false

/-- `GenerateOffset.apply(url)`: parse the filename, normalize
single-level shards to the first of the month, convert the date, take
the day difference to `init_date`, scale by `timestamps_per_file`, and
extend the slice by the day count of the month for single-level shards;
finally resolve the chunk in `variable_dict`.  `none` models every raised
exception (`IndexError`, `ValueError`, `KeyError`). -/
def GenerateOffset.apply (g : GenerateOffset) (url : List Char) :
    Option (List Char × Slice × List (List Char)) :=
  match parseChunkKey url with
  | none => none
  | some (i, chunk) =>
    match strptimeYmd (if g.is_single_level then i ++ ['0', '1'] else i) with
    | none => none
    | some start_date =>
      match strptimeIsoDate g.init_date with
      | none => none
      | some epoch =>
        match lookupVD chunk with
        | none => none
        | some vars =>
          some (url,
            ⟨((toOrdinal start_date : Int) - (toOrdinal epoch : Int)) *
               g.timestamps_per_file,
             ((toOrdinal start_date : Int) - (toOrdinal epoch : Int)) *
                g.timestamps_per_file +
               g.timestamps_per_file *
                 (if g.is_single_level then
                    ((daysInMonth start_date.year start_date.month : Nat) : Int)
                  else 1)⟩,
            vars)

/-! ## `make_path` (`single-levels-to-zarr.py`) -/

/-- `make_path(time, chunk)`: the URL of the shard of `chunk` for the
month of `time`.  A chunk containing `'_'` is a manually split
one-variable file whose name is rebuilt from its three `'_'`-separated
components (`chunk_, level, var = chunk.split('_')`; `none` models the
`ValueError` when the split does not have exactly three parts). -/
def make_path (year month : Nat) (chunk : List Char) : Option (List Char) :=
  if '_' ∈ chunk then
    match pySplit uL chunk with
    | [c, l, v] =>
      some (gsMonthBase ++ pad 4 year ++ ['/'] ++ pad 4 year ++ pad 2 month ++
        hresL ++ c ++ dotGrb2U ++ l ++ uL ++ v ++ dotGrib)
    | _ => none
  else
    some (gsMonthBase ++ pad 4 year ++ ['/'] ++ pad 4 year ++ pad 2 month ++
      hresL ++ chunk ++ dotGrb2)

/-! ## The driver's group-to-chunks mapping
(`CO_FILES_MAPPING` in `ingest_data_in_zarr.py`) -/

/-- `CO_FILES_MAPPING`, in source order. -/
def CO_FILES_MAPPING : List (List Char × List (List Char)) := [
  (("model-level-moisture").toList, [("o3q").toList, ("qrqs").toList]),
  (("model-level-wind").toList, [("dve").toList, ("tw").toList]),
  (("single-level-forecast").toList, [("rad").toList,
    ("pcp_surface_cp").toList, ("pcp_surface_crr").toList,
    ("pcp_surface_csf").toList, ("pcp_surface_csfr").toList,
    ("pcp_surface_es").toList, ("pcp_surface_lsf").toList,
    ("pcp_surface_lsp").toList, ("pcp_surface_lspf").toList,
    ("pcp_surface_lsrr").toList, ("pcp_surface_lssfr").toList,
    ("pcp_surface_ptype").toList, ("pcp_surface_rsn").toList,
    ("pcp_surface_sd").toList, ("pcp_surface_sf").toList,
    ("pcp_surface_smlt").toList, ("pcp_surface_tp").toList]),
  (("single-level-reanalysis").toList, [("cape").toList, ("cisst").toList,
    ("sfc").toList, ("tcol").toList,
    ("soil_depthBelowLandLayer_istl1").toList,
    ("soil_depthBelowLandLayer_istl2").toList,
    ("soil_depthBelowLandLayer_istl3").toList,
    ("soil_depthBelowLandLayer_istl4").toList,
    ("soil_depthBelowLandLayer_stl1").toList,
    ("soil_depthBelowLandLayer_stl2").toList,
    ("soil_depthBelowLandLayer_stl3").toList,
    ("soil_depthBelowLandLayer_stl4").toList,
    ("soil_depthBelowLandLayer_swvl1").toList,
    ("soil_depthBelowLandLayer_swvl2").toList,
    ("soil_depthBelowLandLayer_swvl3").toList,
    ("soil_depthBelowLandLayer_swvl4").toList,
    ("soil_surface_tsn").toList]),
  (("single-level-surface").toList, [("lnsp").toList, ("zs").toList])]

/-- Every chunk name the driver can enumerate from `CO_FILES_MAPPING`. -/
def coChunksAll : List (List Char) := (CO_FILES_MAPPING.map Prod.snd).flatten

/-! ## The Shard Materializer's transfer (`copy` in `update_co.py`) -/

/-- Python exceptions relevant to `copy`. -/
inductive PyExc where
  | calledProcessError
deriving DecidableEq, Repr

/-- `subprocess.run(cmd, check=True)`: raises `CalledProcessError` when
the child exits with a nonzero status. -/
def subprocessRunCheck (exitOk : Bool) : Except PyExc Unit :=
  if exitOk then Except.ok () else Except.error PyExc.calledProcessError

/-- The observable outcome of one call to `copy`. -/
structure CopyOutcome where
  /-- the value `copy` produces for its caller: `Except.ok ()` when it
  returns normally, `Except.error e` when it lets an exception escape -/
  result : Except PyExc Unit
  /-- how many times the transfer subprocess was invoked -/
  subprocessCalls : Nat
  /-- whether `logger.error` was called -/
  loggedError : Bool
deriving Repr

/-- `copy(src, dst)` as a function of the transfer subprocess's exit
status: `try: subprocess.run(..., check=True); return` and
`except CalledProcessError: logger.error(msg)` — the except clause logs
and falls off the end of the function, returning `None` normally. -/
def copy (exitOk : Bool) : CopyOutcome :=
  match subprocessRunCheck exitOk with
  | Except.ok _ => ⟨Except.ok (), 1, false⟩
  | Except.error _ => ⟨Except.ok (), 1, true⟩

/-! ## The Ingestion Driver's availability poll loop
(`raw-to-zarr-to-bq.py`, the `while data_is_missing` loop) -/

/-- `avail k` is the value returned by the `k`-th call of
`check_data_availability(data_date_range)` (`true` means data is still
missing).  `loopRunningAfter avail n` is the loop condition
`data_is_missing` after `n` iterations: the loop performs check `n` iff
`loopRunningAfter avail n = true`; the body re-triggers download and
splitting and never raises. -/
def loopRunningAfter (avail : Nat → Bool) : Nat → Bool
  | 0 => true
  | n + 1 => loopRunningAfter avail n && avail n

/-! ## The Slice Writer (`UpdateSlice` in `update_co.py`) -/

/-- The target store: a named array per variable, indexed along the time
axis. -/
def Store (α : Type) := List Char → Int → α

/-- The assignment `zv[region] = values`: positions
`region.start ≤ i < region.stop` receive `values (i - region.start)`,
all others keep their old content. -/
def writeSlice {α : Type} (a : Int → α) (r : Slice) (vals : Int → α) :
    Int → α :=
  fun i => if r.start ≤ i ∧ i < r.stop then vals (i - r.start) else a i

/-- Replace variable `v`'s array in the store. -/
def updateVar {α : Type} (st : Store α) (v : List Char) (arr : Int → α) :
    Store α :=
  fun w => if w = v then arr else st w

/-- `UpdateSlice.apply(file_slice)` on a store: for each variable name in
the shard's list, overwrite the shard's region of that variable's array
with the decoded values (`decode url vname` models
`xr.open_dataset(...)[vname].values`, which is a deterministic function
of the materialized shard). -/
def UpdateSlice.apply {α : Type} (decode : List Char → List Char → Int → α)
    (fs : List Char × Slice × List (List Char)) (st : Store α) : Store α :=
  fs.2.2.foldl
    (fun acc v => updateVar acc v (writeSlice (acc v) fs.2.1 (decode fs.1 v)))
    st

/-! ## Calendar lemmas -/

/-- The Boolean leap test decoded as a proposition. -/
lemma isLeap_iff (y : Nat) :
    isLeap y = true ↔ (y % 4 = 0 ∧ (y % 100 ≠ 0 ∨ y % 400 = 0)) := by
  simp [isLeap]

/-- `(y-1)/100 ≤ (y-1)/4`, needed around the truncated subtraction in
`_days_before_year`. -/
lemma div100_le_div4 (x : Nat) : x / 100 ≤ x / 4 :=
  Nat.div_le_div_left (by omega) (by omega)

/-- Appending one year to `_days_before_year` adds that year's length. -/
lemma daysBeforeYear_succ (y : Nat) (hy : 1 ≤ y) :
    daysBeforeYear (y + 1) = daysBeforeYear y + daysInYear y := by
  unfold daysBeforeYear daysInYear
  simp only [Nat.add_sub_cancel]
  have hle := div100_le_div4 (y - 1)
  by_cases h4 : y % 4 = 0
  · have d4 : y / 4 = (y - 1) / 4 + 1 := by omega
    by_cases h100 : y % 100 = 0
    · have d100 : y / 100 = (y - 1) / 100 + 1 := by omega
      by_cases h400 : y % 400 = 0
      · have d400 : y / 400 = (y - 1) / 400 + 1 := by omega
        rw [if_pos ((isLeap_iff y).mpr ⟨h4, Or.inr h400⟩), d4, d100, d400]
        omega
      · have d400 : y / 400 = (y - 1) / 400 := by omega
        have hnl : ¬(isLeap y = true) := by
          intro hl
          rcases (isLeap_iff y).mp hl with ⟨-, hA | hB⟩
          · exact hA h100
          · exact h400 hB
        rw [if_neg hnl, d4, d100, d400]
        omega
    · have d100 : y / 100 = (y - 1) / 100 := by omega
      have d400 : y / 400 = (y - 1) / 400 := by omega
      rw [if_pos ((isLeap_iff y).mpr ⟨h4, Or.inl h100⟩), d4, d100, d400]
      omega
  · have d4 : y / 4 = (y - 1) / 4 := by omega
    have d100 : y / 100 = (y - 1) / 100 := by omega
    have d400 : y / 400 = (y - 1) / 400 := by omega
    have hnl : ¬(isLeap y = true) := by
      intro hl
      exact h4 ((isLeap_iff y).mp hl).1
    rw [if_neg hnl, d4, d100, d400]
    omega

/-- `_days_before_year` is monotone. -/
lemma daysBeforeYear_mono {a b : Nat} (h : a ≤ b) :
    daysBeforeYear a ≤ daysBeforeYear b := by
  unfold daysBeforeYear
  have h4 : (a - 1) / 4 ≤ (b - 1) / 4 := Nat.div_le_div_right (by omega)
  have h400 : (a - 1) / 400 ≤ (b - 1) / 400 := Nat.div_le_div_right (by omega)
  omega

set_option maxHeartbeats 1000000 in
/-- A day offset within a valid month stays within the year. -/
lemma daysBeforeMonth_day_le (y m d : Nat) (h1 : 1 ≤ m) (h12 : m ≤ 12)
    (hd : d ≤ daysInMonth y m) :
    daysBeforeMonth y m + d ≤ daysInYear y := by
  interval_cases m <;> cases h : isLeap y <;>
    simp [daysBeforeMonth, daysInMonth, daysInYear, h] at hd ⊢ <;> omega

set_option maxHeartbeats 2000000 in
/-- A day in an earlier month of the same year has a smaller offset. -/
lemma daysBeforeMonth_month_lt (y ma mb da db : Nat) (h1 : 1 ≤ ma)
    (hlt : ma < mb) (h12 : mb ≤ 12) (hda : da ≤ daysInMonth y ma)
    (hdb : 1 ≤ db) :
    daysBeforeMonth y ma + da < daysBeforeMonth y mb + db := by
  have h11 : ma ≤ 11 := by omega
  interval_cases ma <;> interval_cases mb <;> cases h : isLeap y <;>
    simp [daysBeforeMonth, daysInMonth, h] at hda ⊢ <;> omega

/-- `toordinal` is strictly monotone on valid dates. -/
lemma toOrdinal_lt_of_dateLt {a b : Date} (ha : validDate a)
    (hb : validDate b) (h : dateLt a b) : toOrdinal a < toOrdinal b := by
  obtain ⟨hay, ham1, ham2, had1, had2⟩ := ha
  obtain ⟨hby, hbm1, hbm2, hbd1, hbd2⟩ := hb
  unfold toOrdinal
  rcases h with hy | ⟨hy, hm | ⟨hm, hd⟩⟩
  · have h1 : daysBeforeMonth a.year a.month + a.day ≤ daysInYear a.year :=
      daysBeforeMonth_day_le _ _ _ ham1 ham2 had2
    have h2 : daysBeforeYear a.year + daysInYear a.year ≤
        daysBeforeYear b.year := by
      rw [← daysBeforeYear_succ a.year hay]
      exact daysBeforeYear_mono hy
    omega
  · have had2' : a.day ≤ daysInMonth b.year a.month := hy ▸ had2
    have h1 := daysBeforeMonth_month_lt b.year a.month b.month a.day b.day
      ham1 hm hbm2 had2' hbd1
    rw [hy]
    omega
  · rw [hy, hm]
    omega

/-- `strptime("%Y%m%d")` only produces constructor-valid dates. -/
lemma strptimeYmd_valid {s : List Char} {d : Date}
    (h : strptimeYmd s = some d) : validDate d := by
  unfold strptimeYmd at h
  split_ifs at h with h1 h2
  injection h with h3
  subst h3
  exact h2

/-! ## Inversion of `GenerateOffset.apply` -/

/-- When `GenerateOffset.apply` succeeds, its slice is the epoch-relative
day difference scaled by `timestamps_per_file`, extended by the month's
day count for single-level shards. -/
lemma GenerateOffset.apply_inv (g : GenerateOffset)
    (url u i ck : List Char) (sd : Date) (r : Slice) (vs : List (List Char))
    (h1 : parseChunkKey url = some (i, ck))
    (h2 : strptimeYmd (if g.is_single_level then i ++ ['0', '1'] else i) =
      some sd)
    (h3 : g.apply url = some (u, r, vs)) :
    u = url ∧ lookupVD ck = some vs ∧
    ∃ e, strptimeIsoDate g.init_date = some e ∧
      r.start = ((toOrdinal sd : Int) - (toOrdinal e : Int)) *
        g.timestamps_per_file ∧
      r.stop = r.start + g.timestamps_per_file *
        (if g.is_single_level then
          ((daysInMonth sd.year sd.month : Nat) : Int) else 1) := by
  unfold GenerateOffset.apply at h3
  rw [h1] at h3
  simp only at h3
  rw [h2] at h3
  simp only at h3
  cases hE : strptimeIsoDate g.init_date with
  | none => rw [hE] at h3; simp at h3
  | some e =>
    rw [hE] at h3
    simp only at h3
    cases hL : lookupVD ck with
    | none => rw [hL] at h3; simp at h3
    | some vars =>
      rw [hL] at h3
      simp only [Option.some.injEq, Prod.mk.injEq] at h3
      obtain ⟨rfl, rfl, rfl⟩ := h3
      exact ⟨rfl, rfl, e, rfl, rfl, rfl⟩

/-! ## Claims about the Offset Calculator -/

/-- C1: for every shard accepted by `GenerateOffset.apply` (with any
epoch and `timestamps_per_file`), the returned region satisfies
`stop - start = timestamps_per_file * day_count`, where `day_count` is 1
for non-single-level shards and the proleptic-Gregorian day count of the
shard's month for single-level shards. -/
theorem generateOffset_region_length (g : GenerateOffset)
    (url u i ck : List Char) (sd : Date) (r : Slice) (vs : List (List Char))
    (h1 : parseChunkKey url = some (i, ck))
    (h2 : strptimeYmd (if g.is_single_level then i ++ ['0', '1'] else i) =
      some sd)
    (h3 : g.apply url = some (u, r, vs)) :
    r.stop - r.start = g.timestamps_per_file *
      (if g.is_single_level then
        ((daysInMonth sd.year sd.month : Nat) : Int) else 1) := by
  obtain ⟨-, -, e, -, hstart, hstop⟩ :=
    GenerateOffset.apply_inv g url u i ck sd r vs h1 h2 h3
  rw [hstop]
  omega

/-- C1 witness: a single-level shard of February 2024 with 2 samples per
day yields a region of length `2 * 29 = 58`. -/
theorem generateOffset_region_length_witness :
    (⟨90642, 90700⟩ : Slice).stop - (⟨90642, 90700⟩ : Slice).start =
      (⟨("1900-01-01").toList, 2, true⟩ : GenerateOffset).timestamps_per_file *
        (if (⟨("1900-01-01").toList, 2, true⟩ :
            GenerateOffset).is_single_level then
          ((daysInMonth (⟨2024, 2, 1⟩ : Date).year
            (⟨2024, 2, 1⟩ : Date).month : Nat) : Int)
        else 1) :=
  generateOffset_region_length ⟨("1900-01-01").toList, 2, true⟩
    (("a/202402_hres_rad.grb2").toList) (("a/202402_hres_rad.grb2").toList)
    (("202402").toList) (("rad").toList) ⟨2024, 2, 1⟩ ⟨90642, 90700⟩
    [("ssrd").toList, ("strd").toList, ("str").toList, ("ttr").toList,
      ("gwd").toList]
    (by decide) (by decide) (by decide)

/-- C2: whenever `GenerateOffset.apply` succeeds, the region's start is
the number of whole days from the epoch date to the shard's
(month-normalized) date, multiplied by `timestamps_per_file`. -/
theorem generateOffset_region_start (g : GenerateOffset)
    (url u i ck : List Char) (sd e : Date) (r : Slice)
    (vs : List (List Char))
    (h1 : parseChunkKey url = some (i, ck))
    (h2 : strptimeYmd (if g.is_single_level then i ++ ['0', '1'] else i) =
      some sd)
    (hE : strptimeIsoDate g.init_date = some e)
    (h3 : g.apply url = some (u, r, vs)) :
    r.start = ((toOrdinal sd : Int) - (toOrdinal e : Int)) *
      g.timestamps_per_file := by
  obtain ⟨-, -, e', hE', hstart, -⟩ :=
    GenerateOffset.apply_inv g url u i ck sd r vs h1 h2 h3
  rw [hE] at hE'
  rw [Option.some.inj hE']
  exact hstart

/-- C2 witness: epoch 1900-01-01, 24 samples per file, non-single-level
`sfc` shard dated 2023-09 (month-normalized to 2023-09-01): the start is
`days_between(1900-01-01, 2023-09-01) * 24 = 45168 * 24 = 1084032` and
the region is `[start, start + 24)`. -/
theorem generateOffset_region_start_witness :
    (⟨1084032, 1084056⟩ : Slice).start =
      ((toOrdinal ⟨2023, 9, 1⟩ : Int) - (toOrdinal ⟨1900, 1, 1⟩ : Int)) *
        (⟨("1900-01-01").toList, 24, false⟩ :
          GenerateOffset).timestamps_per_file :=
  generateOffset_region_start ⟨("1900-01-01").toList, 24, false⟩
    (("a/20230901_hres_sfc.grb2").toList)
    (("a/20230901_hres_sfc.grb2").toList)
    (("20230901").toList) (("sfc").toList) ⟨2023, 9, 1⟩ ⟨1900, 1, 1⟩
    ⟨1084032, 1084056⟩
    [("z").toList, ("sp").toList, ("tcwv").toList, ("msl").toList,
      ("tcc").toList, ("u10").toList, ("v10").toList, ("t2m").toList,
      ("d2m").toList, ("lcc").toList, ("mcc").toList, ("hcc").toList,
      ("u100").toList, ("v100").toList]
    (by decide) (by decide) (by decide) (by decide)

/-- C5 counterexample: a shard dated 1899-12-01, strictly before the
default epoch 1900-01-01, is accepted by `GenerateOffset.apply` without
any error: the call returns a region with negative start `-744` instead
of failing. -/
theorem generateOffset_pre_epoch_counterexample :
    dateLt ⟨1899, 12, 1⟩ ⟨1900, 1, 1⟩ ∧
    strptimeYmd (("18991201").toList) = some ⟨1899, 12, 1⟩ ∧
    strptimeIsoDate (("1900-01-01").toList) = some ⟨1900, 1, 1⟩ ∧
    GenerateOffset.apply ⟨("1900-01-01").toList, 24, false⟩
        (("a/18991201_hres_dve.grb2").toList) =
      some ((("a/18991201_hres_dve.grb2").toList), ⟨-744, -720⟩,
        [("d").toList, ("vo").toList]) ∧
    (⟨-744, -720⟩ : Slice).start < 0 :=
  ⟨by decide, by decide, by decide, by decide, by decide⟩

/-- C5 amended: when the shard's (month-normalized) date is strictly
earlier than the epoch date and `timestamps_per_file` is positive,
`GenerateOffset.apply` does not fail: it succeeds and returns a region
whose start is negative. -/
theorem generateOffset_pre_epoch_negative_start (g : GenerateOffset)
    (url u i ck : List Char) (sd e : Date) (r : Slice)
    (vs : List (List Char))
    (h1 : parseChunkKey url = some (i, ck))
    (h2 : strptimeYmd (if g.is_single_level then i ++ ['0', '1'] else i) =
      some sd)
    (hE : strptimeIsoDate g.init_date = some e)
    (h3 : g.apply url = some (u, r, vs))
    (hlt : toOrdinal sd < toOrdinal e)
    (hpos : 0 < g.timestamps_per_file) :
    r.start < 0 := by
  obtain ⟨-, -, e', hE', hstart, -⟩ :=
    GenerateOffset.apply_inv g url u i ck sd r vs h1 h2 h3
  rw [hE] at hE'
  rw [hstart, ← Option.some.inj hE']
  apply mul_neg_of_neg_of_pos _ hpos
  have h : (toOrdinal sd : Int) < (toOrdinal e : Int) := by exact_mod_cast hlt
  omega

/-- C5 amended witness: at the 1899-12-01 shard the returned start,
`-744`, is negative. -/
theorem generateOffset_pre_epoch_negative_start_witness :
    (⟨-744, -720⟩ : Slice).start < 0 :=
  generateOffset_pre_epoch_negative_start
    ⟨("1900-01-01").toList, 24, false⟩
    (("a/18991201_hres_dve.grb2").toList)
    (("a/18991201_hres_dve.grb2").toList)
    (("18991201").toList) (("dve").toList) ⟨1899, 12, 1⟩ ⟨1900, 1, 1⟩
    ⟨-744, -720⟩ [("d").toList, ("vo").toList]
    (by decide) (by decide) (by decide) (by decide) (by decide) (by decide)

/-- C9: for a fixed `GenerateOffset` configuration with positive
`timestamps_per_file`, the region start is strictly monotone in the
shard's parsed date: of two accepted shards of the same group, the one
with the later (month-normalized) date gets the strictly larger start. -/
theorem generateOffset_start_strictMono (g : GenerateOffset)
    (hpos : 0 < g.timestamps_per_file)
    (url1 url2 u1 u2 i1 i2 ck1 ck2 : List Char) (sd1 sd2 : Date)
    (r1 r2 : Slice) (vs1 vs2 : List (List Char))
    (hp1 : parseChunkKey url1 = some (i1, ck1))
    (hp2 : parseChunkKey url2 = some (i2, ck2))
    (_hck : ck1 = ck2)
    (hs1 : strptimeYmd (if g.is_single_level then i1 ++ ['0', '1'] else i1) =
      some sd1)
    (hs2 : strptimeYmd (if g.is_single_level then i2 ++ ['0', '1'] else i2) =
      some sd2)
    (ha1 : g.apply url1 = some (u1, r1, vs1))
    (ha2 : g.apply url2 = some (u2, r2, vs2))
    (hlt : dateLt sd1 sd2) :
    r1.start < r2.start := by
  obtain ⟨-, -, e1, hE1, hst1, -⟩ :=
    GenerateOffset.apply_inv g url1 u1 i1 ck1 sd1 r1 vs1 hp1 hs1 ha1
  obtain ⟨-, -, e2, hE2, hst2, -⟩ :=
    GenerateOffset.apply_inv g url2 u2 i2 ck2 sd2 r2 vs2 hp2 hs2 ha2
  rw [hE1] at hE2
  rw [← Option.some.inj hE2] at hst2
  have hord : toOrdinal sd1 < toOrdinal sd2 :=
    toOrdinal_lt_of_dateLt (strptimeYmd_valid hs1) (strptimeYmd_valid hs2) hlt
  rw [hst1, hst2]
  apply mul_lt_mul_of_pos_right _ hpos
  have h : (toOrdinal sd1 : Int) < (toOrdinal sd2 : Int) := by
    exact_mod_cast hord
  omega

/-- C9 witness: with the default configuration, the shard of 1900-01-02
starts strictly after the shard of 1900-01-01 (`0 < 24`). -/
theorem generateOffset_start_strictMono_witness :
    (⟨0, 24⟩ : Slice).start < (⟨24, 48⟩ : Slice).start :=
  generateOffset_start_strictMono ⟨("1900-01-01").toList, 24, false⟩
    (by decide)
    (("a/19000101_hres_dve.grb2").toList) (("a/19000102_hres_dve.grb2").toList)
    (("a/19000101_hres_dve.grb2").toList) (("a/19000102_hres_dve.grb2").toList)
    (("19000101").toList) (("19000102").toList)
    (("dve").toList) (("dve").toList)
    ⟨1900, 1, 1⟩ ⟨1900, 1, 2⟩ ⟨0, 24⟩ ⟨24, 48⟩
    [("d").toList, ("vo").toList] [("d").toList, ("vo").toList]
    (by decide) (by decide) (by decide) (by decide) (by decide) (by decide)
    (by decide) (by decide)

/-! ## Claims about the Materializer transfer (`copy`) -/

/-- C4 counterexample: when the transfer subprocess fails, `copy` does
not surface the failure — the `CalledProcessError` is caught, an error is
logged, and the call returns normally, indistinguishable from success in
its return value. -/
theorem copy_failure_not_surfaced :
    ¬((copy false).result = Except.error PyExc.calledProcessError) ∧
      copy false = ⟨Except.ok (), 1, true⟩ :=
  ⟨(fun h => Except.noConfusion h), rfl⟩

/-- C4 amended: `copy` invokes the transfer subprocess exactly once
(never retrying internally), never lets an exception reach its caller,
and logs an error exactly when the transfer failed; in particular a
failed copy returns exactly as a successful one does, apart from the
log. -/
theorem copy_no_retry_no_raise (exitOk : Bool) :
    (copy exitOk).subprocessCalls = 1 ∧
    (copy exitOk).result = Except.ok () ∧
    ((copy exitOk).loggedError = true ↔ exitOk = false) := by
  cases exitOk <;> refine ⟨rfl, rfl, ?_⟩ <;> simp [copy, subprocessRunCheck]

/-- C4 amended witness: the failing-transfer instance. -/
theorem copy_no_retry_no_raise_witness :
    (copy false).subprocessCalls = 1 ∧
    (copy false).result = Except.ok () ∧
    ((copy false).loggedError = true ↔ false = false) :=
  copy_no_retry_no_raise false

/-! ## Claims about the availability poll loop -/

/-- C3 counterexample: no iteration bound exists for the
`while data_is_missing` loop: for every candidate bound `N` there is an
availability oracle (data permanently missing) under which the loop is
still running after `N` iterations; the loop body has no error path, so
no `ConvergenceError` (or any error) is ever surfaced. -/
theorem availability_loop_unbounded :
    ¬∃ N : Nat, ∀ avail : Nat → Bool, loopRunningAfter avail N = false := by
  rintro ⟨N, h⟩
  have h1 := h (fun _ => true)
  have h2 : ∀ n, loopRunningAfter (fun _ => true) n = true := by
    intro n
    induction n with
    | zero => rfl
    | succ k ih => simp [loopRunningAfter, ih]
  rw [h2 N] at h1
  exact Bool.noConfusion h1

/-- C3 amended: the poll loop terminates after `n` iterations exactly
when one of the first `n` availability checks reported no missing data;
there is no retry or wall-clock budget, and when data never becomes
available the loop never terminates (and surfaces no error). -/
theorem availability_loop_terminates_iff (avail : Nat → Bool) (n : Nat) :
    loopRunningAfter avail n = false ↔ ∃ k < n, avail k = false := by
  induction n with
  | zero => simp [loopRunningAfter]
  | succ m ih =>
    rw [loopRunningAfter, Bool.and_eq_false_iff, ih]
    constructor
    · rintro (⟨k, hk, hf⟩ | hf)
      · exact ⟨k, by omega, hf⟩
      · exact ⟨m, by omega, hf⟩
    · rintro ⟨k, hk, hf⟩
      by_cases hkm : k = m
      · exact Or.inr (hkm ▸ hf)
      · exact Or.inl ⟨k, by omega, hf⟩

/-- C3 amended witness: with data becoming available at the third check,
the loop has terminated after 5 iterations, and indeed some check among
the first 5 returned `false`. -/
theorem availability_loop_terminates_iff_witness :
    loopRunningAfter (fun k => decide (k < 2)) 5 = false ↔
      ∃ k < 5, (fun k => decide (k < 2)) k = false :=
  availability_loop_terminates_iff (fun k => decide (k < 2)) 5

/-! ## Claims about the Variable Catalog -/

/-- A key outside an association list's domain looks up to `none`. -/
lemma assocLookup_eq_none {k : List Char}
    {ps : List (List Char × List (List Char))}
    (h : k ∉ ps.map Prod.fst) : assocLookup k ps = none := by
  induction ps with
  | nil => rfl
  | cons p rest ih =>
    simp only [List.map_cons, List.mem_cons] at h
    push_neg at h
    rw [assocLookup, if_neg h.1]
    exact ih h.2

/-- A key of the domain looks up to some value. -/
lemma assocLookup_isSome_of_mem {k : List Char}
    {ps : List (List Char × List (List Char))}
    (h : k ∈ ps.map Prod.fst) : ∃ v, assocLookup k ps = some v := by
  induction ps with
  | nil => simp at h
  | cons p rest ih =>
    by_cases hk : k = p.1
    · exact ⟨p.2, by rw [assocLookup, if_pos hk]⟩
    · simp only [List.map_cons, List.mem_cons] at h
      rcases h with h | h
      · exact absurd h hk
      · obtain ⟨v, hv⟩ := ih h
        exact ⟨v, by rw [assocLookup, if_neg hk]; exact hv⟩

/-- A successful lookup returns a value stored in the list. -/
lemma assocLookup_mem {k : List Char} {v : List (List Char)}
    {ps : List (List Char × List (List Char))}
    (h : assocLookup k ps = some v) : (k, v) ∈ ps := by
  induction ps with
  | nil => simp [assocLookup] at h
  | cons p rest ih =>
    rw [assocLookup] at h
    split_ifs at h with hk
    · have hv : p.2 = v := Option.some.inj h
      have hp : (k, v) = p := by rw [hk, ← hv]
      rw [hp]
      exact List.mem_cons_self _ _
    · exact List.mem_cons_of_mem _ (ih h)

/-- C6: resolving a group name that is not registered in
`variable_dict` is a hard failure: the lookup itself yields no value (a
`KeyError`), and `GenerateOffset.apply` on any shard that parses to such
a group fails rather than returning an empty variable list. -/
theorem unknown_group_lookup_fails (g : GenerateOffset)
    (url i ck : List Char)
    (h1 : parseChunkKey url = some (i, ck))
    (h2 : ck ∉ vdKeys) :
    lookupVD ck = none ∧ g.apply url = none := by
  have hnone : lookupVD ck = none := assocLookup_eq_none h2
  refine ⟨hnone, ?_⟩
  unfold GenerateOffset.apply
  rw [h1]
  simp only
  cases hY : strptimeYmd (if g.is_single_level then i ++ ['0', '1'] else i) with
  | none => rfl
  | some sd =>
    simp only
    cases hI : strptimeIsoDate g.init_date with
    | none => rfl
    | some e =>
      simp only
      rw [hnone]

/-- C6 witness: the unregistered group `"zzz"`. -/
theorem unknown_group_lookup_fails_witness :
    lookupVD (("zzz").toList) = none ∧
    GenerateOffset.apply ⟨("1900-01-01").toList, 24, false⟩
      (("a/19000101_hres_zzz.grb2").toList) = none :=
  unknown_group_lookup_fails ⟨("1900-01-01").toList, 24, false⟩
    (("a/19000101_hres_zzz.grb2").toList) (("19000101").toList)
    (("zzz").toList) (by decide) (by decide)

/-- Decidable per-chunk check backing C10. -/
def chunkRegistered (ck : List Char) : Bool :=
  match lookupVD ck with
  | none => false
  | some vs => decide (vs ≠ []) && decide vs.Nodup

/-- C10: every chunk name listed in `CO_FILES_MAPPING` is a key of
`variable_dict`, and its catalog entry is a non-empty, duplicate-free
list of variable names — so the lookup at the end of
`GenerateOffset.apply` succeeds on every shard the driver enumerates. -/
theorem co_mapping_chunks_registered (ck : List Char)
    (h : ck ∈ coChunksAll) :
    ∃ vs, lookupVD ck = some vs ∧ vs ≠ [] ∧ vs.Nodup := by
  have hall : coChunksAll.all chunkRegistered = true := by decide
  have hck := List.all_eq_true.mp hall ck h
  unfold chunkRegistered at hck
  cases hL : lookupVD ck with
  | none => rw [hL] at hck; exact Bool.noConfusion hck
  | some vs =>
    rw [hL] at hck
    simp only [Bool.and_eq_true, decide_eq_true_eq] at hck
    exact ⟨vs, rfl, hck.1, hck.2⟩

/-- C10 witness: the `"sfc"` chunk of the `single-level-reanalysis`
group. -/
theorem co_mapping_chunks_registered_witness :
    ∃ vs, lookupVD (("sfc").toList) = some vs ∧ vs ≠ [] ∧ vs.Nodup :=
  co_mapping_chunks_registered (("sfc").toList) (by decide)

/-! ## Claims about the Slice Writer -/

/-- Pointwise characterization of `UpdateSlice.apply`: a position of a
written variable inside the region holds the decoded value; everything
else is untouched. -/
lemma UpdateSlice.apply_char {α : Type}
    (decode : List Char → List Char → Int → α) (u : List Char) (r : Slice)
    (vars : List (List Char)) (st : Store α) (w : List Char) (i : Int) :
    UpdateSlice.apply decode (u, r, vars) st w i =
      if w ∈ vars ∧ r.start ≤ i ∧ i < r.stop then decode u w (i - r.start)
      else st w i := by
  induction vars generalizing st with
  | nil => simp [UpdateSlice.apply]
  | cons v rest ih =>
    show UpdateSlice.apply decode (u, r, rest)
      (updateVar st v (writeSlice (st v) r (decode u v))) w i = _
    rw [ih]
    by_cases hm : w ∈ rest
    · by_cases hin : r.start ≤ i ∧ i < r.stop
      · rw [if_pos ⟨hm, hin⟩, if_pos ⟨List.mem_cons_of_mem _ hm, hin⟩]
      · rw [if_neg (by tauto), if_neg (by tauto)]
        unfold updateVar writeSlice
        by_cases hw : w = v
        · rw [if_pos hw, if_neg hin, hw]
        · rw [if_neg hw]
    · rw [if_neg (by tauto)]
      unfold updateVar writeSlice
      by_cases hw : w = v
      · rw [if_pos hw]
        by_cases hin : r.start ≤ i ∧ i < r.stop
        · rw [if_pos hin, if_pos ⟨by rw [hw]; exact List.mem_cons_self _ _,
            hin⟩, hw]
        · rw [if_neg hin, if_neg (by tauto), hw]
      · rw [if_neg hw]
        rw [if_neg (by
          rintro ⟨hmem, hin⟩
          rcases List.mem_cons.mp hmem with h | h
          · exact hw h
          · exact hm h)]

/-- C8: re-ingesting the same shard is idempotent, and only the shard's
own region of its own variables is touched: running
`UpdateSlice.apply` twice with the same descriptor and the same decoded
values leaves the store exactly as one run does; positions outside
`[region.start, region.stop)` of written variables, and all other
variables, keep their previous content. -/
theorem updateSlice_idempotent_frame {α : Type}
    (decode : List Char → List Char → Int → α) (u : List Char) (r : Slice)
    (vars : List (List Char)) (st : Store α) :
    UpdateSlice.apply decode (u, r, vars)
        (UpdateSlice.apply decode (u, r, vars) st) =
      UpdateSlice.apply decode (u, r, vars) st ∧
    (∀ w i, w ∈ vars → ¬(r.start ≤ i ∧ i < r.stop) →
      UpdateSlice.apply decode (u, r, vars) st w i = st w i) ∧
    (∀ w i, w ∉ vars →
      UpdateSlice.apply decode (u, r, vars) st w i = st w i) := by
  refine ⟨?_, ?_, ?_⟩
  · funext w i
    simp only [UpdateSlice.apply_char]
    by_cases h : w ∈ vars ∧ r.start ≤ i ∧ i < r.stop
    · simp [h]
    · simp [h]
  · intro w i hw hin
    rw [UpdateSlice.apply_char, if_neg (by tauto)]
  · intro w i hw
    rw [UpdateSlice.apply_char, if_neg (by tauto)]

/-- C8 witness: a concrete two-variable shard over `Int` values; the
double run equals the single run, and sample positions outside the
region or outside the variable list are untouched. -/
theorem updateSlice_idempotent_frame_witness :
    (UpdateSlice.apply (fun _ _ i => i) (("u").toList, ⟨0, 24⟩,
        [("d").toList, ("vo").toList])
        (UpdateSlice.apply (fun _ _ i => i) (("u").toList, ⟨0, 24⟩,
          [("d").toList, ("vo").toList]) (fun _ _ => (0 : Int))) =
      UpdateSlice.apply (fun _ _ i => i) (("u").toList, ⟨0, 24⟩,
        [("d").toList, ("vo").toList]) (fun _ _ => (0 : Int))) ∧
    UpdateSlice.apply (fun _ _ i => i) (("u").toList, ⟨0, 24⟩,
        [("d").toList, ("vo").toList]) (fun _ _ => (0 : Int))
        (("d").toList) (-1) = (0 : Int) ∧
    UpdateSlice.apply (fun _ _ i => i) (("u").toList, ⟨0, 24⟩,
        [("d").toList, ("vo").toList]) (fun _ _ => (0 : Int))
        (("t").toList) 3 = (0 : Int) := by
  obtain ⟨h1, h2, h3⟩ := updateSlice_idempotent_frame (fun _ _ i => i)
    (("u").toList) ⟨0, 24⟩ [("d").toList, ("vo").toList]
    (fun _ _ => (0 : Int))
  exact ⟨h1, h2 (("d").toList) (-1) (by decide) (by decide),
    h3 (("t").toList) 3 (by decide)⟩

/-! ## Digit-string lemmas -/

/-- Digit characters of a bounded value. -/
lemma digitChar_isDig {d : Nat} (h : d < 10) : isDig (digitChar d) = true := by
  interval_cases d <;> decide

/-- Every character rendered by `natToCharsGo` is a decimal digit. -/
lemma natToCharsGo_digits (fuel : Nat) :
    ∀ n ch, ch ∈ natToCharsGo fuel n → isDig ch = true := by
  induction fuel with
  | zero => intro n ch h; simp [natToCharsGo] at h
  | succ f ih =>
    intro n ch h
    rw [natToCharsGo] at h
    split_ifs at h with h10
    · rcases List.mem_singleton.mp h with rfl
      exact digitChar_isDig h10
    · rcases List.mem_append.mp h with h | h
      · exact ih _ _ h
      · rcases List.mem_singleton.mp h with rfl
        exact digitChar_isDig (Nat.mod_lt _ (by omega))

/-- Every character of a zero-padded decimal rendering is a digit. -/
lemma pad_digits {w n : Nat} {ch : Char} (h : ch ∈ pad w n) :
    isDig ch = true := by
  rcases List.mem_append.mp h with h | h
  · rcases List.eq_of_mem_replicate h with rfl
    decide
  · exact natToCharsGo_digits _ _ _ h

/-- Digits are never a path separator, an underscore or a dot. -/
lemma isDig_ne {ch : Char} (h : isDig ch = true) :
    ch ≠ '_' ∧ ch ≠ '/' ∧ ch ≠ '.' := by
  refine ⟨?_, ?_, ?_⟩ <;> rintro rfl <;> exact absurd h (by decide)

/-! ## `rsplit(sep, 1)` lemmas -/

/-- `breakAtFirst` finds the designated separator when nothing before it
matches. -/
lemma breakAtFirst_append (c : Char) (a b : List Char) (h : c ∉ a) :
    breakAtFirst c (a ++ c :: b) = some (a, b) := by
  induction a with
  | nil => simp [breakAtFirst]
  | cons x xs ih =>
    have hx : ¬(x = c) := fun hc => h (hc ▸ List.mem_cons_self _ _)
    rw [List.cons_append, breakAtFirst, if_neg hx,
      ih (fun hm => h (List.mem_cons_of_mem _ hm))]

/-- `s.rsplit(c, 1)` splits at the last occurrence of `c`. -/
lemma pyRsplit1_last (c : Char) (x y : List Char) (h : c ∉ y) :
    pyRsplit1 c (x ++ c :: y) = [x, y] := by
  unfold pyRsplit1
  have hrev : (x ++ c :: y).reverse = y.reverse ++ c :: x.reverse := by
    simp [List.reverse_append]
  rw [hrev, breakAtFirst_append c _ _ (by simpa using h)]
  simp

/-! ## `split(sep)` lemmas -/

/-- A list is a Boolean prefix of itself plus anything. -/
lemma isPrefixOf_append_self (p t : List Char) :
    p.isPrefixOf (p ++ t) = true := by
  induction p with
  | nil => simp [List.isPrefixOf]
  | cons a as ih => simp [List.isPrefixOf, ih]

/-- Mismatch on the first character refutes the Boolean prefix test. -/
lemma isPrefixOf_cons_ne {c a : Char} (rest s : List Char) (h : ¬(a = c)) :
    (c :: rest).isPrefixOf (a :: s) = false := by
  have hb : (c == a) = false := beq_eq_false_iff_ne.mpr (fun hc => h hc.symm)
  simp [List.isPrefixOf, hb]

/-- `splitGo` ignores its fuel as long as the fuel dominates the length
of the string. -/
lemma splitGo_fuel (c : Char) (rest : List Char) :
    ∀ f1 f2 s, s.length ≤ f1 → s.length ≤ f2 →
      splitGo c rest f1 s = splitGo c rest f2 s := by
  intro f1
  induction f1 with
  | zero =>
    intro f2 s h1 h2
    have hs : s = [] := by
      cases s with
      | nil => rfl
      | cons a t => simp at h1
    subst hs
    cases f2 <;> rfl
  | succ g ih =>
    intro f2 s h1 h2
    cases s with
    | nil => cases f2 <;> rfl
    | cons a s' =>
      cases f2 with
      | zero => simp at h2
      | succ g2 =>
        simp only [splitGo]
        by_cases hp : (c :: rest).isPrefixOf (a :: s') = true
        · rw [if_pos hp, if_pos hp]
          have hd : ((a :: s').drop (rest.length + 1)).length ≤ g := by
            simp only [List.length_drop, List.length_cons]
            simp at h1
            omega
          have hd2 : ((a :: s').drop (rest.length + 1)).length ≤ g2 := by
            simp only [List.length_drop, List.length_cons]
            simp at h2
            omega
          rw [ih g2 _ hd hd2]
        · rw [if_neg hp, if_neg hp,
            ih g2 s' (by simpa using h1) (by simpa using h2)]

/-- `pySplit` computed with any sufficient fuel. -/
lemma pySplit_eq_splitGo (c : Char) (rest s : List Char) (f : Nat)
    (h : s.length ≤ f) : pySplit (c :: rest) s = splitGo c rest f s := by
  unfold pySplit
  exact splitGo_fuel c rest s.length f s le_rfl h

/-- Splitting a string that starts with the separator emits an empty
first part. -/
lemma pySplit_sep_cons (c : Char) (rest t : List Char) :
    pySplit (c :: rest) ((c :: rest) ++ t) = [] :: pySplit (c :: rest) t := by
  rw [pySplit_eq_splitGo c rest _ (rest.length + t.length + 1)
    (by simp only [List.cons_append, List.length_append, List.length_cons]
        omega)]
  show splitGo c rest (rest.length + t.length + 1) (c :: (rest ++ t)) = _
  simp only [splitGo]
  have hp : (c :: rest).isPrefixOf (c :: (rest ++ t)) = true :=
    isPrefixOf_append_self (c :: rest) t
  rw [if_pos hp]
  have hdrop : (c :: (rest ++ t)).drop (rest.length + 1) = t := by
    rw [List.drop_succ_cons, List.drop_left]
  rw [hdrop, ← pySplit_eq_splitGo c rest t _ (by omega)]

/-- Splitting skips over a block containing no character equal to the
separator's head. -/
lemma pySplit_skip (c : Char) (rest d t : List Char)
    (hd : ∀ a ∈ d, ¬(a = c)) :
    pySplit (c :: rest) (d ++ ((c :: rest) ++ t)) =
      d :: pySplit (c :: rest) t := by
  induction d with
  | nil => simpa using pySplit_sep_cons c rest t
  | cons a d' ih =>
    have ha : ¬(a = c) := hd a (List.mem_cons_self _ _)
    have hlen : (a :: (d' ++ ((c :: rest) ++ t))).length ≤
        (d' ++ ((c :: rest) ++ t)).length + 1 := by simp
    rw [List.cons_append, pySplit_eq_splitGo c rest _ _ hlen]
    simp only [splitGo]
    rw [if_neg (by simp [isPrefixOf_cons_ne _ _ ha])]
    rw [← pySplit_eq_splitGo c rest _ _ le_rfl]
    rw [ih (fun x hx => hd x (List.mem_cons_of_mem _ hx))]

/-! ## Round trip of `make_path` and the filename reduction -/

/-- Evaluation of the filename-to-(date, group) reduction on a URL of
the shape `make_path` produces: a directory part, the last `'/'`, two
zero-padded numbers, the `"_hres_"` marker, the chunk-derived tail, and
a final dotted extension. -/
lemma parseChunkKey_eval (x D4 D2 t body : List Char)
    (hD4 : ∀ ch ∈ D4, isDig ch = true) (hD2 : ∀ ch ∈ D2, isDig ch = true)
    (hslash_t : '/' ∉ t) (hslash_b : '/' ∉ body) (hdot_b : '.' ∉ body)
    (hsplit : pySplit hresL t = [t]) :
    parseChunkKey (x ++ ('/' :: (D4 ++ (D2 ++ (hresL ++ (t ++ '.' :: body)))))) =
      some (D4 ++ D2, if '_' ∈ t then pyReplace t dotGrb2U uL else t) := by
  have h1 : pyRsplit1 '/'
      (x ++ ('/' :: (D4 ++ (D2 ++ (hresL ++ (t ++ '.' :: body)))))) =
      [x, D4 ++ (D2 ++ (hresL ++ (t ++ '.' :: body)))] := by
    apply pyRsplit1_last
    intro hm
    simp only [List.mem_append, List.mem_cons] at hm
    rcases hm with h | h | h | h | h | h
    · exact (isDig_ne (hD4 _ h)).2.1 rfl
    · exact (isDig_ne (hD2 _ h)).2.1 rfl
    · exact absurd h (by decide)
    · exact hslash_t h
    · exact absurd h (by decide)
    · exact hslash_b h
  have h2 : pyRsplit1 '.' (D4 ++ (D2 ++ (hresL ++ (t ++ '.' :: body)))) =
      [D4 ++ (D2 ++ (hresL ++ t)), body] := by
    have hgrp : D4 ++ (D2 ++ (hresL ++ (t ++ '.' :: body))) =
        (D4 ++ (D2 ++ (hresL ++ t))) ++ '.' :: body := by
      simp [List.append_assoc]
    rw [hgrp]
    exact pyRsplit1_last '.' _ body hdot_b
  have hdigits : ∀ a ∈ D4 ++ D2, ¬(a = '_') := by
    intro a ha
    rcases List.mem_append.mp ha with h | h
    · exact (isDig_ne (hD4 _ h)).1
    · exact (isDig_ne (hD2 _ h)).1
  have h3 : pySplit hresL (D4 ++ (D2 ++ (hresL ++ t))) = [D4 ++ D2, t] := by
    have hgrp : D4 ++ (D2 ++ (hresL ++ t)) = (D4 ++ D2) ++ (hresL ++ t) :=
      (List.append_assoc _ _ _).symm
    rw [hgrp]
    have hsplit' : pySplit ('_' :: ['h', 'r', 'e', 's', '_']) t = [t] := hsplit
    have hstep := pySplit_skip '_' ['h', 'r', 'e', 's', '_'] (D4 ++ D2) t
      hdigits
    rw [hsplit'] at hstep
    exact hstep
  unfold parseChunkKey
  rw [h1]
  simp only [List.getElem?_cons_succ, List.getElem?_cons_zero]
  rw [h2]
  simp only [List.getElem?_cons_zero]
  rw [h3]

/-- Decidable side conditions under which a chunk key survives the
`make_path` / `GenerateOffset.apply` round trip; checked below for every
key of `variable_dict`. -/
def goodKey (k : List Char) : Bool :=
  if '_' ∈ k then
    match pySplit uL k with
    | [c, l, v] =>
      decide ('/' ∉ c ++ dotGrb2U ++ l ++ uL ++ v) &&
      decide (pySplit hresL (c ++ dotGrb2U ++ l ++ uL ++ v) =
        [c ++ dotGrb2U ++ l ++ uL ++ v]) &&
      decide (pyReplace (c ++ dotGrb2U ++ l ++ uL ++ v) dotGrb2U uL = k) &&
      decide ('_' ∈ c ++ dotGrb2U ++ l ++ uL ++ v)
    | _ => false
  else
    decide ('/' ∉ k) && decide (pySplit hresL k = [k])

/-- The round trip for any key satisfying `goodKey`: `make_path`
produces a URL, and the filename reduction of `GenerateOffset.apply`
recovers the zero-padded year-month digits and exactly the original
chunk key — for every year and month. -/
lemma parse_make_path_of_goodKey (y m : Nat) (k : List Char)
    (hgk : goodKey k = true) :
    ∃ url, make_path y m k = some url ∧
      parseChunkKey url = some (pad 4 y ++ pad 2 m, k) := by
  by_cases hk : '_' ∈ k
  · unfold goodKey at hgk
    rw [if_pos hk] at hgk
    split at hgk
    · rename_i c l v heq
      simp only [Bool.and_eq_true, decide_eq_true_eq] at hgk
      obtain ⟨⟨⟨hslash, hsplit⟩, hrep⟩, hmem⟩ := hgk
      refine ⟨gsMonthBase ++ pad 4 y ++ ['/'] ++ pad 4 y ++ pad 2 m ++
        hresL ++ c ++ dotGrb2U ++ l ++ uL ++ v ++ dotGrib, ?_, ?_⟩
      · unfold make_path
        rw [if_pos hk, heq]
      · have hurl : gsMonthBase ++ pad 4 y ++ ['/'] ++ pad 4 y ++ pad 2 m ++
            hresL ++ c ++ dotGrb2U ++ l ++ uL ++ v ++ dotGrib =
            (gsMonthBase ++ pad 4 y) ++ ('/' :: (pad 4 y ++ (pad 2 m ++
              (hresL ++ ((c ++ dotGrb2U ++ l ++ uL ++ v) ++
                '.' :: ['g', 'r', 'i', 'b']))))) := by
          simp [dotGrib, List.append_assoc]
        rw [hurl,
          parseChunkKey_eval (gsMonthBase ++ pad 4 y) (pad 4 y) (pad 2 m)
            (c ++ dotGrb2U ++ l ++ uL ++ v) ['g', 'r', 'i', 'b']
            (fun ch h => pad_digits h) (fun ch h => pad_digits h)
            hslash (by decide) (by decide) hsplit,
          if_pos hmem, hrep]
    · exact Bool.noConfusion hgk
  · unfold goodKey at hgk
    rw [if_neg hk] at hgk
    simp only [Bool.and_eq_true, decide_eq_true_eq] at hgk
    obtain ⟨hslash, hsplit⟩ := hgk
    refine ⟨gsMonthBase ++ pad 4 y ++ ['/'] ++ pad 4 y ++ pad 2 m ++
      hresL ++ k ++ dotGrb2, ?_, ?_⟩
    · unfold make_path
      rw [if_neg hk]
    · have hurl : gsMonthBase ++ pad 4 y ++ ['/'] ++ pad 4 y ++ pad 2 m ++
          hresL ++ k ++ dotGrb2 =
          (gsMonthBase ++ pad 4 y) ++ ('/' :: (pad 4 y ++ (pad 2 m ++
            (hresL ++ (k ++ '.' :: ['g', 'r', 'b', '2']))))) := by
        simp [dotGrb2, List.append_assoc]
      rw [hurl,
        parseChunkKey_eval (gsMonthBase ++ pad 4 y) (pad 4 y) (pad 2 m)
          k ['g', 'r', 'b', '2']
          (fun ch h => pad_digits h) (fun ch h => pad_digits h)
          hslash (by decide) (by decide) hsplit,
        if_neg hk]

/-- C7: for every chunk key of `variable_dict` and every year and month,
`make_path` produces a URL, the filename reduction of
`GenerateOffset.apply` (rsplit on `'/'` and `'.'`, split on `"_hres_"`,
then the `".grb2_"` replacement) recovers exactly that chunk key together
with the zero-padded year-month digits, and the catalog lookup on the
recovered key resolves (to exactly one group's variables). -/
theorem make_path_parse_roundtrip (y m : Nat) (k : List Char)
    (hk : k ∈ vdKeys) :
    ∃ url vars, make_path y m k = some url ∧
      parseChunkKey url = some (pad 4 y ++ pad 2 m, k) ∧
      lookupVD k = some vars := by
  have hall : vdKeys.all goodKey = true := by decide
  have hgk : goodKey k = true := List.all_eq_true.mp hall k hk
  obtain ⟨url, h1, h2⟩ := parse_make_path_of_goodKey y m k hgk
  obtain ⟨vars, hv⟩ := assocLookup_isSome_of_mem (by exact hk)
  exact ⟨url, vars, h1, h2, hv⟩

/-- C7 witness: the sub-split key `soil_depthBelowLandLayer_istl1` at
2023-09. -/
theorem make_path_parse_roundtrip_witness :
    ∃ url vars,
      make_path 2023 9 (("soil_depthBelowLandLayer_istl1").toList) =
        some url ∧
      parseChunkKey url = some (pad 4 2023 ++ pad 2 9,
        ("soil_depthBelowLandLayer_istl1").toList) ∧
      lookupVD (("soil_depthBelowLandLayer_istl1").toList) = some vars :=
  make_path_parse_roundtrip 2023 9
    (("soil_depthBelowLandLayer_istl1").toList) (by decide)
